import Mathlib

/-
Shallow embedding of the report-scheduler pagination engine.

Sources embedded here:
- src/pdf-generation/lib/modes/data-table-paginator.js
    (`paginateDataTable`, `getDataRowsPerPage`, `createNewPage`)
- src/pdf-generation/lib/modes/aggregate-table-paginator.js
    (`paginateAggregateTable`, `getDataRowsPerPage`, `groupRowsWithSubtotals`,
     `createNewPage`)
- src/unnamed/part_001 (the pivot-table module and its paginator:
    `paginateTableData`, `getDataRowsPerPage`, `estimateRowsPerPage`)

Modelling conventions:
- JavaScript numbers in the geometry computation are modelled as exact
  rationals (ℚ).  Every floor argument appearing in the claims sits far from
  an integer boundary (fractional parts ≈ 0.13 … 0.93), so double rounding
  cannot change any of the computed row budgets.
- JavaScript string-keyed object lookup (`pageHeightsPx[pageSize]`) is
  modelled with `Option`: a missing key is `none`, and `x || y` on a
  possibly-undefined value is `Option.getD`.
- The stateful `forEach` loops are modelled as `List.foldl` over an explicit
  state record, mirroring the mutation order of the source line by line.
- Row and cell payloads are carried verbatim; only fields the paginators
  never read are dropped from the cell record.
-/

/-! ## Data model -/

/-- A table cell as extracted by the paginator modules. -/
structure Cell where
  text : String := ""
  colspan : Nat := 1
  rowspan : Nat := 1
  className : String := ""
  isHeader : Bool := false
  columnId : Option String := none
deriving DecidableEq

/-- One header row: an ordered sequence of cells. -/
structure HeaderRow where
  cells : List Cell := []
deriving DecidableEq

/-- The grand-total row extracted from `tfoot`. -/
structure GrandTotal where
  cells : List Cell := []
deriving DecidableEq

/-- A data row.  `type` is the `data-row-type` attribute string
(`"data"` or `"subtotal"`), exactly as the JS code compares it. -/
structure Row where
  type : String := "data"
  subtotalLevel : Option String := none
  index : Nat := 0
  cells : List Cell := []
deriving DecidableEq

/-- Metadata is opaque passthrough for the paginators; its inner structure is
never inspected, so it is modelled by an opaque token. -/
abbrev Metadata := String

/-- The extracted table model handed to a paginator
(`{ headers, rows, grandTotal, metadata }`).  `headers` is `none` when the
extractor produced no header array. -/
structure TableData where
  headers : Option (List HeaderRow) := none
  rows : List Row := []
  grandTotal : Option GrandTotal := none
  metadata : Metadata := ""
deriving DecidableEq

/-- One output page.  `totalPages` is `none` until the stamping pass fills
it; `grandTotal` is `none` until grand-total placement. -/
structure Page where
  headers : Option (List HeaderRow)
  rows : List Row
  pageNumber : Nat
  metadata : Metadata
  grandTotal : Option GrandTotal
  totalPages : Option Nat
deriving DecidableEq

/-- The options record accepted by the paginate functions, with the
source defaults. -/
structure PaginateOptions where
  pageSize : String := "Letter"
  orientation : String := "portrait"
  keepSubtotalsTogether : Bool := true
deriving DecidableEq

/-- `headers ? headers.length : 1` - the header-row count used by every
paginator.  Note a present-but-empty header array yields `0`. -/
def numHeaderRowsOf (headers : Option (List HeaderRow)) : Nat :=
  match headers with
  | some hs => hs.length
  | none => 1

/-! ## Page geometry (shared constants)

The three paginator modules each repeat the same geometry table and
constants verbatim; only `pageHeaderPx` differs (56 in the data-table and
aggregate-table modules, 64 in the pivot module). -/

/-- Chromium PDF DPI: 96 units per inch. -/
def DPI : ℚ := 96

/-- `(mm) => (mm / 25.4) * DPI`. -/
def mmToPx (mm : ℚ) : ℚ := mm / 25.4 * DPI

/-- The per-size portrait/landscape page heights. -/
structure PageHeights where
  portrait : ℚ
  landscape : ℚ
deriving DecidableEq

/-- The Letter entry of the height table (also the fallback). -/
def letterHeights : PageHeights := ⟨11 * DPI, 8.5 * DPI⟩

/-- The `pageHeightsPx` lookup table; a key absent from the object is
`none`. -/
def pageHeightsPx (pageSize : String) : Option PageHeights :=
  if pageSize = "Letter" then some letterHeights
  else if pageSize = "Legal" then some ⟨14 * DPI, 8.5 * DPI⟩
  else if pageSize = "A4" then some ⟨297 / 25.4 * DPI, 210 / 25.4 * DPI⟩
  else if pageSize = "A3" then some ⟨420 / 25.4 * DPI, 297 / 25.4 * DPI⟩
  else if pageSize = "A5" then some ⟨210 / 25.4 * DPI, 148 / 25.4 * DPI⟩
  else none

/-- Indexing a `PageHeights` record with an arbitrary orientation string:
an unknown orientation reads an absent property (`none`). -/
def orientationHeight (h : PageHeights) (orientation : String) : Option ℚ :=
  if orientation = "portrait" then some h.portrait
  else if orientation = "landscape" then some h.landscape
  else none

/-- `(pageHeightsPx[pageSize] || pageHeightsPx.Letter)[orientation] ||
pageHeightsPx.Letter.portrait`. -/
def heightPx (pageSize orientation : String) : ℚ :=
  (orientationHeight ((pageHeightsPx pageSize).getD letterHeights) orientation).getD
    letterHeights.portrait

/-- Common body of the three `getDataRowsPerPage` copies, abstracted over the
one constant that differs between modules (`pageHeaderPx`).
`headerRowCount || 1` maps the falsy `0` to `1`. -/
def dataRowsPerPageWith (pageHeaderPx : ℚ) (pageSize orientation : String)
    (headerRowCount : Nat) : Int :=
  let hPx := heightPx pageSize orientation
  let verticalPdfMarginsPx := mmToPx (15 + 15)
  let verticalPagePaddingPx : ℚ := 40
  let rowHeightPx : ℚ := 27
  let headerHeightPx : ℚ :=
    (if headerRowCount = 0 then 1 else (headerRowCount : ℚ)) * rowHeightPx
  let roundingSafetyPx : ℚ := 16
  let availablePx := hPx - verticalPdfMarginsPx - verticalPagePaddingPx - pageHeaderPx -
    headerHeightPx - roundingSafetyPx
  max 1 (⌊availablePx / rowHeightPx⌋ - 1)

namespace DataTablePaginator

/-- `getDataRowsPerPage` of data-table-paginator.js (`pageHeaderPx = 56`). -/
def getDataRowsPerPage (pageSize orientation : String) (headerRowCount : Nat) : Int :=
  dataRowsPerPageWith 56 pageSize orientation headerRowCount

end DataTablePaginator

namespace AggregateTablePaginator

/-- `getDataRowsPerPage` of aggregate-table-paginator.js (`pageHeaderPx = 56`). -/
def getDataRowsPerPage (pageSize orientation : String) (headerRowCount : Nat) : Int :=
  dataRowsPerPageWith 56 pageSize orientation headerRowCount

end AggregateTablePaginator

namespace PivotTablePaginator

/-- `getDataRowsPerPage` of the pivot-table paginator (`pageHeaderPx = 64`). -/
def getDataRowsPerPage (pageSize orientation : String) (headerRowCount : Nat) : Int :=
  dataRowsPerPageWith 64 pageSize orientation headerRowCount

end PivotTablePaginator

/-! ## Page construction and assembly (shared shape of all three modules) -/

/-- `createNewPage(headers, pageNumber, metadata)`. -/
def createNewPage (headers : Option (List HeaderRow)) (pageNumber : Nat)
    (metadata : Metadata) : Page :=
  { headers := headers
    rows := []
    pageNumber := pageNumber
    metadata := metadata
    grandTotal := none
    totalPages := none }

/-- The mutable loop state of the assembly loops: the pushed pages, the page
under construction, and `currentRowCount`. -/
structure AssembleState where
  pages : List Page
  currentPage : Page
  currentRowCount : Nat
deriving DecidableEq

/-- One iteration of the ungrouped (`rows.forEach`) loop: close the current
page when it is full and non-empty, then append the row. -/
def ungroupedStep (headers : Option (List HeaderRow)) (metadata : Metadata)
    (maxDataRowsPerPage : Int) (st : AssembleState) (row : Row) : AssembleState :=
  let st' :=
    if maxDataRowsPerPage ≤ (st.currentRowCount : Int) ∧ 0 < st.currentPage.rows.length then
      let pages := st.pages ++ [st.currentPage]
      { pages := pages
        currentPage := createNewPage headers (pages.length + 1) metadata
        currentRowCount := 0 }
    else st
  { st' with
    currentPage := { st'.currentPage with rows := st'.currentPage.rows ++ [row] }
    currentRowCount := st'.currentRowCount + 1 }

/-- One iteration of the grouped (`rowGroups.forEach`) loop: close the
current page when adding the group would exceed the budget and the page has
content, then append the whole group. -/
def groupedStep (headers : Option (List HeaderRow)) (metadata : Metadata)
    (maxDataRowsPerPage : Int) (st : AssembleState) (group : List Row) : AssembleState :=
  let st' :=
    if maxDataRowsPerPage < (st.currentRowCount : Int) + group.length ∧
        0 < st.currentPage.rows.length then
      let pages := st.pages ++ [st.currentPage]
      { pages := pages
        currentPage := createNewPage headers (pages.length + 1) metadata
        currentRowCount := 0 }
    else st
  { st' with
    currentPage := { st'.currentPage with rows := st'.currentPage.rows ++ group }
    currentRowCount := st'.currentRowCount + group.length }

/-- The loop state before the first iteration: no pushed pages, an empty
page numbered `pages.length + 1 = 1`, zero rows counted. -/
def initialAssembleState (headers : Option (List HeaderRow)) (metadata : Metadata) :
    AssembleState :=
  { pages := []
    currentPage := createNewPage headers 1 metadata
    currentRowCount := 0 }

/-- The shared loop epilogue: `if (currentPage.rows.length > 0) pages.push(currentPage)`. -/
def finalizePages (st : AssembleState) : List Page :=
  if 0 < st.currentPage.rows.length then st.pages ++ [st.currentPage] else st.pages

/-- Ungrouped ("simple pagination") assembly: the `rows.forEach` loop plus the
final push of a non-empty current page. -/
def assembleUngrouped (headers : Option (List HeaderRow)) (metadata : Metadata)
    (maxDataRowsPerPage : Int) (rows : List Row) : List Page :=
  finalizePages
    (rows.foldl (ungroupedStep headers metadata maxDataRowsPerPage)
      (initialAssembleState headers metadata))

/-- Grouped assembly: the `rowGroups.forEach` loop plus the final push of a
non-empty current page. -/
def assembleGrouped (headers : Option (List HeaderRow)) (metadata : Metadata)
    (maxDataRowsPerPage : Int) (rowGroups : List (List Row)) : List Page :=
  finalizePages
    (rowGroups.foldl (groupedStep headers metadata maxDataRowsPerPage)
      (initialAssembleState headers metadata))

namespace AggregateTablePaginator

/-- One iteration of the `rows.forEach` loop inside `groupRowsWithSubtotals`:
append the row to the current group and close the group at a subtotal row or
at the last index. -/
def groupStep (numRows : Nat) (acc : List (List Row) × List Row)
    (ir : Nat × Row) : List (List Row) × List Row :=
  let currentGroup := acc.2 ++ [ir.2]
  if ir.2.type == "subtotal" || ir.1 == numRows - 1 then
    if 0 < currentGroup.length then (acc.1 ++ [currentGroup], []) else (acc.1, currentGroup)
  else
    (acc.1, currentGroup)

/-- `groupRowsWithSubtotals(rows)` (aggregate-table-paginator.js lines
216-238; the pivot module repeats it verbatim). -/
def groupRowsWithSubtotals (rows : List Row) : List (List Row) :=
  let acc := rows.enum.foldl (groupStep rows.length) ([], [])
  if 0 < acc.2.length then acc.1 ++ [acc.2] else acc.1

end AggregateTablePaginator

/-- Grand-total placement (aggregate-table-paginator.js lines 156-169 and
part_001 lines 657-671): runs only when a grand total exists and at least
one page exists; attaches to the last page when
`numHeaderRows + lastPage.rows.length + 1 ≤ totalRowsPerPage`, otherwise
appends a fresh page holding only the grand total. -/
def attachGrandTotal (headers : Option (List HeaderRow)) (metadata : Metadata)
    (numHeaderRows : Nat) (totalRowsPerPage : Int) (grandTotal : Option GrandTotal)
    (pages : List Page) : List Page :=
  match grandTotal with
  | none => pages
  | some gt =>
    match pages.getLast? with
    | none => pages
    | some lastPage =>
      if (numHeaderRows : Int) + (lastPage.rows.length : Int) + 1 ≤ totalRowsPerPage then
        pages.dropLast ++ [{ lastPage with grandTotal := some gt }]
      else
        pages ++ [{ createNewPage headers (pages.length + 1) metadata with
          grandTotal := some gt }]

/-- The final `pages.forEach(page => page.totalPages = pages.length)` pass. -/
def stampTotalPages (pages : List Page) : List Page :=
  pages.map fun page => { page with totalPages := some pages.length }

/-- The page-assembly portion of `paginateAggregateTable` (lines 101-153):
grouped when `keepSubtotalsTogether` is set and some row is a subtotal,
otherwise ungrouped. -/
def aggregateAssembledPages (d : TableData) (options : PaginateOptions) : List Page :=
  let numHeaderRows := numHeaderRowsOf d.headers
  let maxDataRowsPerPage :=
    AggregateTablePaginator.getDataRowsPerPage options.pageSize options.orientation
      numHeaderRows
  if options.keepSubtotalsTogether && d.rows.any fun r => r.type == "subtotal" then
    assembleGrouped d.headers d.metadata maxDataRowsPerPage
      (AggregateTablePaginator.groupRowsWithSubtotals d.rows)
  else
    assembleUngrouped d.headers d.metadata maxDataRowsPerPage d.rows

/-- `paginateAggregateTable(data, options)` (aggregate-table-paginator.js
lines 79-183): assembly, then grand-total placement, then stamping. -/
def paginateAggregateTable (data : Option TableData) (options : PaginateOptions) :
    List Page :=
  match data with
  | none => []
  | some d =>
    let numHeaderRows := numHeaderRowsOf d.headers
    let maxDataRowsPerPage :=
      AggregateTablePaginator.getDataRowsPerPage options.pageSize options.orientation
        numHeaderRows
    let totalRowsPerPage := maxDataRowsPerPage + numHeaderRows
    stampTotalPages
      (attachGrandTotal d.headers d.metadata numHeaderRows totalRowsPerPage d.grandTotal
        (aggregateAssembledPages d options))

/-- `paginateDataTable(data, options)` (data-table-paginator.js lines
57-112): simple pagination then stamping; no grouping, no grand total. -/
def paginateDataTable (data : Option TableData) (options : PaginateOptions) :
    List Page :=
  match data with
  | none => []
  | some d =>
    stampTotalPages
      (assembleUngrouped d.headers d.metadata
        (DataTablePaginator.getDataRowsPerPage options.pageSize options.orientation
          (numHeaderRowsOf d.headers)) d.rows)

namespace PivotTablePaginator

/-- Resolution of the free identifier `getTotalRowsPerPage` used by the pivot
module's `estimateRowsPerPage` (part_001 line 763).  No module in the
repository defines or imports a binding of that name, so the lookup yields
nothing. -/
def resolveTotalRowsPerPage : Option (String → String → Int) := none

/-- A thrown JavaScript error value. -/
structure JsError where
  name : String
  message : String
deriving DecidableEq

/-- `estimateRowsPerPage` of the pivot paginator (part_001 lines 762-765):
its body evaluates `getTotalRowsPerPage(pageSize, orientation)` and then
subtracts `numHeaderRows`; evaluating the unresolvable identifier throws a
`ReferenceError`. -/
def estimateRowsPerPage (pageSize orientation : String)
    (hasMultiRowHeaders : Bool) (numHeaderRows : Int) : Except JsError Int :=
  match resolveTotalRowsPerPage with
  | none =>
    Except.error { name := "ReferenceError"
                   message := "getTotalRowsPerPage is not defined" }
  | some f => Except.ok (f pageSize orientation - numHeaderRows)

end PivotTablePaginator

/-! ## Concrete fixtures used by the claims -/

/-- The known page-size keys of the geometry table. -/
def knownPageSizes : List String := ["Letter", "Legal", "A4", "A3", "A5"]

/-- The known orientation keys of the geometry table. -/
def knownOrientations : List String := ["portrait", "landscape"]

/-- The default options record `{}`. -/
def defaultPaginateOptions : PaginateOptions := {}

/-- A plain data row, distinguished by its extraction index. -/
def dataRow (index : Nat) : Row :=
  { type := "data", subtotalLevel := none, index := index, cells := [] }

/-- A subtotal row, distinguished by its extraction index. -/
def subtotalRow (index : Nat) : Row :=
  { type := "subtotal", subtotalLevel := some "1", index := index, cells := [] }

/-- The spec's grouped-mode scenario rows `[d,d,S,d,d,d,S,d]`. -/
def scenarioRows : List Row :=
  [dataRow 0, dataRow 1, subtotalRow 2, dataRow 3, dataRow 4, dataRow 5,
   subtotalRow 6, dataRow 7]

/-- A table model around the scenario rows. -/
def scenarioData : TableData :=
  { headers := none, rows := scenarioRows, grandTotal := none, metadata := "" }

/-- A one-cell-free header row for the single-header fixtures. -/
def fixtureHeaderRow : HeaderRow := { cells := [] }

/-- 100 subtotal-free data rows. -/
def rows100 : List Row := (List.range 100).map dataRow

/-- The 100-row, 1-header-row data-table fixture. -/
def d100 : TableData :=
  { headers := some [fixtureHeaderRow], rows := rows100, grandTotal := none, metadata := "" }

/-- A concrete grand-total row. -/
def gt0 : GrandTotal := { cells := [] }

/-- A table with a grand total and zero data rows. -/
def gtOnlyData : TableData :=
  { headers := none, rows := [], grandTotal := some gt0, metadata := "" }

/-- A table with a grand total and a single data row. -/
def oneRowGT : TableData :=
  { headers := none, rows := [dataRow 0], grandTotal := some gt0, metadata := "" }

/-! ## Generic fold lemmas -/

/-- Flattening a list of singletons gives back the list. -/
lemma flatten_map_single {α : Type} : ∀ l : List α, (l.map fun a => [a]).flatten = l
  | [] => rfl
  | a :: l => by simp [flatten_map_single l]

/-- A fold whose step appends `g a` to an emission function `E` emits the
flattened images of the whole list. -/
lemma foldl_emit {σ α β : Type} (E : σ → List β) (f : σ → α → σ) (g : α → List β)
    (hf : ∀ st a, E (f st a) = E st ++ g a) :
    ∀ (l : List α) (st : σ), E (l.foldl f st) = E st ++ (l.map g).flatten := by
  intro l
  induction l with
  | nil => intro st; simp
  | cons a t ih => intro st; simp [hf, ih]

/-- A fold preserves any invariant its step preserves. -/
lemma foldl_inv {σ α : Type} (P : σ → Prop) (f : σ → α → σ)
    (hf : ∀ st a, P st → P (f st a)) :
    ∀ (l : List α) (st : σ), P st → P (l.foldl f st) := by
  intro l
  induction l with
  | nil => intro st h; exact h
  | cons a t ih => intro st h; exact ih (f st a) (hf st a h)

/-- Splitting a list at its last element. -/
lemma list_eq_dropLast_append {α : Type} (l : List α) (p : α)
    (h : l.getLast? = some p) : l = l.dropLast ++ [p] := by
  have hne : l ≠ [] := by rintro rfl; simp at h
  have h2 : l.getLast hne = p := by
    rw [List.getLast?_eq_getLast l hne] at h
    exact Option.some.inj h
  rw [← h2]
  exact (List.dropLast_append_getLast hne).symm

/-! ## Row conservation through the assembly loops -/

/-- The rows already irrevocably placed by the loop: rows on pushed pages
followed by the rows of the page under construction. -/
def emittedRows (st : AssembleState) : List Row :=
  (st.pages.map Page.rows).flatten ++ st.currentPage.rows

lemma emittedRows_initial (headers : Option (List HeaderRow)) (metadata : Metadata) :
    emittedRows (initialAssembleState headers metadata) = [] := rfl

lemma emittedRows_ungroupedStep (headers : Option (List HeaderRow)) (metadata : Metadata)
    (m : Int) (st : AssembleState) (row : Row) :
    emittedRows (ungroupedStep headers metadata m st row) = emittedRows st ++ [row] := by
  simp only [ungroupedStep, emittedRows]
  split
  · simp [createNewPage]
  · simp

lemma emittedRows_groupedStep (headers : Option (List HeaderRow)) (metadata : Metadata)
    (m : Int) (st : AssembleState) (group : List Row) :
    emittedRows (groupedStep headers metadata m st group) = emittedRows st ++ group := by
  simp only [groupedStep, emittedRows]
  split
  · simp [createNewPage]
  · simp

lemma finalizePages_rows (st : AssembleState) :
    ((finalizePages st).map Page.rows).flatten = emittedRows st := by
  simp only [finalizePages, emittedRows]
  split
  · simp
  · next h =>
    have : st.currentPage.rows = [] := by
      have := Nat.eq_zero_of_not_pos h
      exact List.eq_nil_of_length_eq_zero this
    simp [this]

lemma assembleUngrouped_rows (headers : Option (List HeaderRow)) (metadata : Metadata)
    (m : Int) (rows : List Row) :
    ((assembleUngrouped headers metadata m rows).map Page.rows).flatten = rows := by
  unfold assembleUngrouped
  rw [finalizePages_rows,
    foldl_emit emittedRows _ (fun r => [r]) (emittedRows_ungroupedStep headers metadata m),
    emittedRows_initial, flatten_map_single, List.nil_append]

lemma assembleGrouped_rows (headers : Option (List HeaderRow)) (metadata : Metadata)
    (m : Int) (rowGroups : List (List Row)) :
    ((assembleGrouped headers metadata m rowGroups).map Page.rows).flatten =
      rowGroups.flatten := by
  unfold assembleGrouped
  rw [finalizePages_rows,
    foldl_emit emittedRows _ (fun g => g) (emittedRows_groupedStep headers metadata m),
    emittedRows_initial, List.nil_append, List.map_id']

/-! ## Grouper conservation -/

/-- Rows placed by the grouping loop: closed groups then the open group. -/
def emittedGroups (acc : List (List Row) × List Row) : List Row :=
  acc.1.flatten ++ acc.2

lemma emittedGroups_groupStep (n : Nat) (acc : List (List Row) × List Row)
    (ir : Nat × Row) :
    emittedGroups (AggregateTablePaginator.groupStep n acc ir) =
      emittedGroups acc ++ [ir.2] := by
  simp only [AggregateTablePaginator.groupStep, emittedGroups]
  split
  · split
    · simp
    · simp
  · simp

lemma groupRowsWithSubtotals_flatten (rows : List Row) :
    (AggregateTablePaginator.groupRowsWithSubtotals rows).flatten = rows := by
  have h := foldl_emit emittedGroups (AggregateTablePaginator.groupStep rows.length)
    (fun ir => [ir.2]) (emittedGroups_groupStep rows.length) rows.enum ([], [])
  have hmap : ((rows.enum.map fun ir => [ir.2]).flatten) = rows := by
    rw [show (fun ir : Nat × Row => [ir.2]) = (fun a => [a]) ∘ Prod.snd from rfl,
      ← List.map_map, flatten_map_single, List.enum_map_snd]
  rw [hmap] at h
  simp only [AggregateTablePaginator.groupRowsWithSubtotals]
  split
  · rw [List.flatten_append]
    simpa [emittedGroups] using h
  · next hlen =>
    have h2 : (rows.enum.foldl (AggregateTablePaginator.groupStep rows.length) ([], [])).2
        = [] := by
      have := Nat.eq_zero_of_not_pos hlen
      exact List.eq_nil_of_length_eq_zero this
    rw [emittedGroups, h2, List.append_nil] at h
    simpa using h

lemma groupRowsWithSubtotals_ne_nil (rows : List Row) :
    ∀ g ∈ AggregateTablePaginator.groupRowsWithSubtotals rows, g ≠ [] := by
  have hstep : ∀ (acc : List (List Row) × List Row) (ir : Nat × Row),
      (∀ g ∈ acc.1, g ≠ []) →
      ∀ g ∈ (AggregateTablePaginator.groupStep rows.length acc ir).1, g ≠ [] := by
    intro acc ir hacc
    simp only [AggregateTablePaginator.groupStep]
    split
    · split
      · intro g hg
        rcases List.mem_append.mp hg with hg1 | hg2
        · exact hacc g hg1
        · rw [List.mem_singleton.mp hg2]; simp
      · exact hacc
    · exact hacc
  have h := foldl_inv (fun acc : List (List Row) × List Row => ∀ g ∈ acc.1, g ≠ [])
    (AggregateTablePaginator.groupStep rows.length) hstep rows.enum ([], []) (by simp)
  simp only [AggregateTablePaginator.groupRowsWithSubtotals]
  split
  · next hlen =>
    intro g hg
    rcases List.mem_append.mp hg with hg1 | hg2
    · exact h g hg1
    · rw [List.mem_singleton.mp hg2]
      intro hnil
      rw [hnil] at hlen
      simp at hlen
  · exact h

/-! ## Stamping and grand-total placement preserve the row content -/

lemma stampTotalPages_map_rows (pages : List Page) :
    (stampTotalPages pages).map Page.rows = pages.map Page.rows := by
  simp [stampTotalPages, List.map_map]

lemma stampTotalPages_length (pages : List Page) :
    (stampTotalPages pages).length = pages.length := by
  simp [stampTotalPages]

lemma attachGrandTotal_map_rows (headers : Option (List HeaderRow)) (metadata : Metadata)
    (n : Nat) (t : Int) (gtOpt : Option GrandTotal) (pages : List Page) :
    (attachGrandTotal headers metadata n t gtOpt pages).map Page.rows = pages.map Page.rows ∨
    (attachGrandTotal headers metadata n t gtOpt pages).map Page.rows =
      pages.map Page.rows ++ [[]] := by
  cases gtOpt with
  | none => exact Or.inl rfl
  | some gt =>
    cases hlast : pages.getLast? with
    | none =>
      left
      simp only [attachGrandTotal, hlast]
    | some lp =>
      simp only [attachGrandTotal, hlast]
      split
      · left
        conv_rhs => rw [list_eq_dropLast_append pages lp hlast]
        simp
      · right
        simp [createNewPage]

lemma aggregateAssembledPages_rows (d : TableData) (options : PaginateOptions) :
    ((aggregateAssembledPages d options).map Page.rows).flatten = d.rows := by
  simp only [aggregateAssembledPages]
  split
  · rw [assembleGrouped_rows, groupRowsWithSubtotals_flatten]
  · rw [assembleUngrouped_rows]

/-- Unfolding equation for `paginateAggregateTable` on a present table. -/
lemma paginateAggregateTable_some (d : TableData) (options : PaginateOptions) :
    paginateAggregateTable (some d) options =
      stampTotalPages
        (attachGrandTotal d.headers d.metadata (numHeaderRowsOf d.headers)
          (AggregateTablePaginator.getDataRowsPerPage options.pageSize options.orientation
              (numHeaderRowsOf d.headers) + (numHeaderRowsOf d.headers : Int))
          d.grandTotal (aggregateAssembledPages d options)) := rfl

/-- C1: concatenating the `rows` slices of all pages produced by
`paginateDataTable` and by `paginateAggregateTable` (grouped or ungrouped
mode alike), in page order, reproduces the input row sequence exactly; a
grand-total-only page contributes an empty slice. -/
theorem c1_row_conservation (d : TableData) (optionsA optionsD : PaginateOptions) :
    ((paginateAggregateTable (some d) optionsA).map Page.rows).flatten = d.rows ∧
    ((paginateDataTable (some d) optionsD).map Page.rows).flatten = d.rows := by
  constructor
  · rw [paginateAggregateTable_some, stampTotalPages_map_rows]
    rcases attachGrandTotal_map_rows d.headers d.metadata (numHeaderRowsOf d.headers)
      (AggregateTablePaginator.getDataRowsPerPage optionsA.pageSize optionsA.orientation
          (numHeaderRowsOf d.headers) + (numHeaderRowsOf d.headers : Int))
      d.grandTotal (aggregateAssembledPages d optionsA) with hmap | hmap
    · rw [hmap]
      exact aggregateAssembledPages_rows d optionsA
    · rw [hmap, List.flatten_append]
      simpa using aggregateAssembledPages_rows d optionsA
  · show (((stampTotalPages (assembleUngrouped d.headers d.metadata
        (DataTablePaginator.getDataRowsPerPage optionsD.pageSize optionsD.orientation
          (numHeaderRowsOf d.headers)) d.rows))).map Page.rows).flatten = d.rows
    rw [stampTotalPages_map_rows, assembleUngrouped_rows]

/-! ## Grouped assembly never splits a group across pages -/

lemma grouped_chunks (headers : Option (List HeaderRow)) (metadata : Metadata) (m : Int) :
    ∀ (groups : List (List Row)) (st : AssembleState) (chunks0 : List (List (List Row)))
      (cur0 : List (List Row)),
      st.pages.map Page.rows = chunks0.map List.flatten →
      st.currentPage.rows = cur0.flatten →
      (∀ c ∈ cur0, c ≠ []) →
      (∀ g ∈ groups, g ≠ []) →
      ∃ (chunks : List (List (List Row))) (cur : List (List Row)),
        (groups.foldl (groupedStep headers metadata m) st).pages.map Page.rows =
          chunks.map List.flatten ∧
        (groups.foldl (groupedStep headers metadata m) st).currentPage.rows = cur.flatten ∧
        chunks.flatten ++ cur = chunks0.flatten ++ cur0 ++ groups ∧
        (∀ c ∈ cur, c ≠ []) := by
  intro groups
  induction groups with
  | nil =>
    intro st chunks0 cur0 h1 h2 h3 _
    exact ⟨chunks0, cur0, h1, h2, by simp, h3⟩
  | cons g gs ih =>
    intro st chunks0 cur0 h1 h2 h3 hne
    have hg : g ≠ [] := hne g (by simp)
    have hgs : ∀ x ∈ gs, x ≠ [] := fun x hx => hne x (List.mem_cons_of_mem _ hx)
    rw [List.foldl_cons]
    by_cases hcond : m < (st.currentRowCount : Int) + g.length ∧
        0 < st.currentPage.rows.length
    · have hp : (groupedStep headers metadata m st g).pages =
          st.pages ++ [st.currentPage] := by
        simp only [groupedStep, if_pos hcond]
      have hc : (groupedStep headers metadata m st g).currentPage.rows = g := by
        simp only [groupedStep, if_pos hcond]
        simp [createNewPage]
      obtain ⟨chunks, cur, p1, p2, p3, p4⟩ := ih (groupedStep headers metadata m st g)
        (chunks0 ++ [cur0]) [g]
        (by rw [hp]; simp [h1, h2])
        (by rw [hc]; simp)
        (by simpa using hg)
        hgs
      refine ⟨chunks, cur, p1, p2, ?_, p4⟩
      rw [p3, List.flatten_append]
      simp
    · have hp : (groupedStep headers metadata m st g).pages = st.pages := by
        simp only [groupedStep, if_neg hcond]
      have hc : (groupedStep headers metadata m st g).currentPage.rows =
          st.currentPage.rows ++ g := by
        simp only [groupedStep, if_neg hcond]
      obtain ⟨chunks, cur, p1, p2, p3, p4⟩ := ih (groupedStep headers metadata m st g)
        chunks0 (cur0 ++ [g])
        (by rw [hp]; exact h1)
        (by rw [hc, h2]; simp)
        (by
          intro c hcm
          rcases List.mem_append.mp hcm with hc1 | hc2
          · exact h3 c hc1
          · rw [List.mem_singleton.mp hc2]; exact hg)
        hgs
      refine ⟨chunks, cur, p1, p2, ?_, p4⟩
      rw [p3]
      simp
  
lemma assembleGrouped_chunks (headers : Option (List HeaderRow)) (metadata : Metadata)
    (m : Int) (groups : List (List Row)) (hg : ∀ g ∈ groups, g ≠ []) :
    ∃ chunks : List (List (List Row)),
      chunks.flatten = groups ∧
      (assembleGrouped headers metadata m groups).map Page.rows =
        chunks.map List.flatten := by
  obtain ⟨chunks, cur, p1, p2, p3, p4⟩ := grouped_chunks headers metadata m groups
    (initialAssembleState headers metadata) [] []
    (by simp [initialAssembleState])
    (by simp [initialAssembleState, createNewPage])
    (by simp) hg
  simp only [assembleGrouped, finalizePages]
  split
  · refine ⟨chunks ++ [cur], ?_, ?_⟩
    · rw [List.flatten_append]
      simpa using p3
    · simp [p1, p2]
  · next hlen =>
    have hcur : (groups.foldl (groupedStep headers metadata m)
        (initialAssembleState headers metadata)).currentPage.rows = [] :=
      List.eq_nil_of_length_eq_zero (Nat.eq_zero_of_not_pos hlen)
    have hcurnil : cur = [] := by
      rw [hcur] at p2
      cases cur with
      | nil => rfl
      | cons c t =>
        exfalso
        have hcne : c ≠ [] := p4 c (by simp)
        have h0 : c ++ t.flatten = [] := by
          simpa [List.flatten_cons] using p2.symm
        exact hcne (List.append_eq_nil.mp h0).1
    subst hcurnil
    exact ⟨chunks, by simpa using p3, p1⟩

/-- In grouped mode the assembled pages are the grouped assembly of the
grouper's output. -/
lemma aggregateAssembledPages_grouped (d : TableData) (options : PaginateOptions)
    (hkeep : options.keepSubtotalsTogether = true)
    (hsub : d.rows.any (fun r => r.type == "subtotal") = true) :
    aggregateAssembledPages d options =
      assembleGrouped d.headers d.metadata
        (AggregateTablePaginator.getDataRowsPerPage options.pageSize options.orientation
          (numHeaderRowsOf d.headers))
        (AggregateTablePaginator.groupRowsWithSubtotals d.rows) := by
  simp only [aggregateAssembledPages, hkeep, hsub, Bool.and_self, if_true]

/-- C2: in grouped mode (subtotals present, `keepSubtotalsTogether` set) the
produced pages' `rows` slices are exactly the flattenings of a partition of
the grouper's output into consecutive runs of whole groups - so no page
boundary falls strictly inside a group, and an oversized group still lands
whole on a single page. -/
theorem c2_grouping_integrity (d : TableData) (options : PaginateOptions)
    (hkeep : options.keepSubtotalsTogether = true)
    (hsub : d.rows.any (fun r => r.type == "subtotal") = true) :
    ∃ chunks : List (List (List Row)),
      chunks.flatten = AggregateTablePaginator.groupRowsWithSubtotals d.rows ∧
      (paginateAggregateTable (some d) options).map Page.rows =
        chunks.map List.flatten := by
  obtain ⟨chunks, hc1, hc2⟩ := assembleGrouped_chunks d.headers d.metadata
    (AggregateTablePaginator.getDataRowsPerPage options.pageSize options.orientation
      (numHeaderRowsOf d.headers))
    (AggregateTablePaginator.groupRowsWithSubtotals d.rows)
    (groupRowsWithSubtotals_ne_nil d.rows)
  rw [paginateAggregateTable_some, stampTotalPages_map_rows]
  rcases attachGrandTotal_map_rows d.headers d.metadata (numHeaderRowsOf d.headers)
    (AggregateTablePaginator.getDataRowsPerPage options.pageSize options.orientation
        (numHeaderRowsOf d.headers) + (numHeaderRowsOf d.headers : Int))
    d.grandTotal (aggregateAssembledPages d options) with hmap | hmap
  · refine ⟨chunks, hc1, ?_⟩
    rw [hmap, aggregateAssembledPages_grouped d options hkeep hsub, hc2]
  · refine ⟨chunks ++ [[]], ?_, ?_⟩
    · rw [List.flatten_append]
      simpa using hc1
    · rw [hmap, aggregateAssembledPages_grouped d options hkeep hsub, hc2]
      simp

/-- Witness for C2 at the concrete scenario table. -/
theorem c2_grouping_integrity_witness :
    defaultPaginateOptions.keepSubtotalsTogether = true ∧
    scenarioData.rows.any (fun r => r.type == "subtotal") = true ∧
    ∃ chunks : List (List (List Row)),
      chunks.flatten = AggregateTablePaginator.groupRowsWithSubtotals scenarioData.rows ∧
      (paginateAggregateTable (some scenarioData) defaultPaginateOptions).map Page.rows =
        chunks.map List.flatten :=
  ⟨rfl, rfl, c2_grouping_integrity scenarioData defaultPaginateOptions rfl rfl⟩

/-! ## Dense 1-based page numbering -/

lemma range'_cons (s n : Nat) : List.range' s (n + 1) = s :: List.range' (s + 1) n := rfl

lemma range'_concat_one (s n : Nat) :
    List.range' s n ++ [s + n] = List.range' s (n + 1) := by
  induction n generalizing s with
  | zero => simp [range'_cons]
  | succ n ih =>
    calc List.range' s (n + 1) ++ [s + (n + 1)]
        = s :: (List.range' (s + 1) n ++ [(s + 1) + n]) := by
          rw [range'_cons]
          simp [List.cons_append]
          omega
      _ = s :: List.range' (s + 1) (n + 1) := by rw [ih]
      _ = List.range' s (n + 2) := (range'_cons s (n + 1)).symm

/-- Loop invariant: pushed pages are numbered `1..k` densely and the page
under construction carries number `k + 1`. -/
def numberedState (st : AssembleState) : Prop :=
  st.pages.map Page.pageNumber = List.range' 1 st.pages.length ∧
  st.currentPage.pageNumber = st.pages.length + 1

lemma numberedState_initial (headers : Option (List HeaderRow)) (metadata : Metadata) :
    numberedState (initialAssembleState headers metadata) := ⟨rfl, rfl⟩

lemma map_pageNumber_append_last (st : AssembleState) (h : numberedState st) :
    (st.pages ++ [st.currentPage]).map Page.pageNumber =
      List.range' 1 (st.pages ++ [st.currentPage]).length := by
  rw [List.map_append, List.length_append]
  simp only [List.map_cons, List.map_nil, List.length_cons, List.length_nil]
  rw [h.1, h.2]
  have h2 := range'_concat_one 1 st.pages.length
  rw [Nat.add_comm 1 st.pages.length] at h2
  simpa using h2

lemma numberedState_groupedStep (headers : Option (List HeaderRow)) (metadata : Metadata)
    (m : Int) (st : AssembleState) (g : List Row) (h : numberedState st) :
    numberedState (groupedStep headers metadata m st g) := by
  simp only [groupedStep]
  split
  · constructor
    · exact map_pageNumber_append_last st h
    · simp [createNewPage]
  · constructor
    · exact h.1
    · simpa using h.2

lemma numberedState_ungroupedStep (headers : Option (List HeaderRow)) (metadata : Metadata)
    (m : Int) (st : AssembleState) (row : Row) (h : numberedState st) :
    numberedState (ungroupedStep headers metadata m st row) := by
  simp only [ungroupedStep]
  split
  · constructor
    · exact map_pageNumber_append_last st h
    · simp [createNewPage]
  · constructor
    · exact h.1
    · simpa using h.2

lemma finalizePages_numbered (st : AssembleState) (h : numberedState st) :
    (finalizePages st).map Page.pageNumber = List.range' 1 (finalizePages st).length := by
  simp only [finalizePages]
  split
  · exact map_pageNumber_append_last st h
  · exact h.1

lemma aggregateAssembledPages_numbered (d : TableData) (options : PaginateOptions) :
    (aggregateAssembledPages d options).map Page.pageNumber =
      List.range' 1 (aggregateAssembledPages d options).length := by
  simp only [aggregateAssembledPages]
  split
  · exact finalizePages_numbered _
      (foldl_inv numberedState _ (fun st g => numberedState_groupedStep _ _ _ st g) _ _
        (numberedState_initial _ _))
  · exact finalizePages_numbered _
      (foldl_inv numberedState _ (fun st row => numberedState_ungroupedStep _ _ _ st row) _ _
        (numberedState_initial _ _))

lemma attachGrandTotal_numbered (headers : Option (List HeaderRow)) (metadata : Metadata)
    (n : Nat) (t : Int) (gtOpt : Option GrandTotal) (pages : List Page)
    (h : pages.map Page.pageNumber = List.range' 1 pages.length) :
    (attachGrandTotal headers metadata n t gtOpt pages).map Page.pageNumber =
      List.range' 1 (attachGrandTotal headers metadata n t gtOpt pages).length := by
  cases gtOpt with
  | none => exact h
  | some gt =>
    cases hlast : pages.getLast? with
    | none =>
      simpa only [attachGrandTotal, hlast] using h
    | some lp =>
      simp only [attachGrandTotal, hlast]
      split
      · have hdecomp := list_eq_dropLast_append pages lp hlast
        have h1 : (pages.dropLast ++ [{ lp with grandTotal := some gt }]).map Page.pageNumber =
            pages.map Page.pageNumber := by
          conv_rhs => rw [hdecomp]
          simp
        have h2 : (pages.dropLast ++ [{ lp with grandTotal := some gt }]).length =
            pages.length := by
          conv_rhs => rw [hdecomp]
          simp
        rw [h1, h2]
        exact h
      · rw [List.map_append, h]
        simp only [List.map_cons, List.map_nil, List.length_append, List.length_cons,
          List.length_nil, createNewPage]
        have h2 := range'_concat_one 1 pages.length
        rw [Nat.add_comm 1 pages.length] at h2
        simpa using h2

lemma stampTotalPages_map_pageNumber (pages : List Page) :
    (stampTotalPages pages).map Page.pageNumber = pages.map Page.pageNumber := by
  simp [stampTotalPages, List.map_map]

lemma stampTotalPages_map_totalPages (pages : List Page) :
    (stampTotalPages pages).map Page.totalPages =
      List.replicate pages.length (some pages.length) := by
  unfold stampTotalPages
  rw [List.map_map]
  exact List.map_const' pages (some pages.length)

/-- C9: the produced page list is numbered densely from 1 (a grand-total-only
page included), and stamping writes `totalPages = pages.length` into every
page. -/
theorem c9_numbering_and_stamping (d : TableData) (options : PaginateOptions) :
    (paginateAggregateTable (some d) options).map Page.pageNumber =
      List.range' 1 (paginateAggregateTable (some d) options).length ∧
    (paginateAggregateTable (some d) options).map Page.totalPages =
      List.replicate (paginateAggregateTable (some d) options).length
        (some (paginateAggregateTable (some d) options).length) := by
  rw [paginateAggregateTable_some]
  constructor
  · rw [stampTotalPages_map_pageNumber, stampTotalPages_length]
    exact attachGrandTotal_numbered _ _ _ _ _ _ (aggregateAssembledPages_numbered d options)
  · rw [stampTotalPages_map_totalPages, stampTotalPages_length]

/-! ## Grand-total placement invariants -/

lemma stampTotalPages_map_grandTotal (pages : List Page) :
    (stampTotalPages pages).map Page.grandTotal = pages.map Page.grandTotal := by
  simp [stampTotalPages, List.map_map]

/-- Loop invariant: no page assembled by the loops carries a grand total. -/
def noGrandTotalState (st : AssembleState) : Prop :=
  (∀ p ∈ st.pages, p.grandTotal = none) ∧ st.currentPage.grandTotal = none

lemma noGrandTotalState_initial (headers : Option (List HeaderRow)) (metadata : Metadata) :
    noGrandTotalState (initialAssembleState headers metadata) := ⟨by simp [initialAssembleState], rfl⟩

lemma noGrandTotalState_groupedStep (headers : Option (List HeaderRow)) (metadata : Metadata)
    (m : Int) (st : AssembleState) (g : List Row) (h : noGrandTotalState st) :
    noGrandTotalState (groupedStep headers metadata m st g) := by
  simp only [groupedStep]
  split
  · constructor
    · intro p hp
      rcases List.mem_append.mp hp with h1 | h2
      · exact h.1 p h1
      · rw [List.mem_singleton.mp h2]; exact h.2
    · simp [createNewPage]
  · constructor
    · exact h.1
    · simpa using h.2

lemma noGrandTotalState_ungroupedStep (headers : Option (List HeaderRow)) (metadata : Metadata)
    (m : Int) (st : AssembleState) (row : Row) (h : noGrandTotalState st) :
    noGrandTotalState (ungroupedStep headers metadata m st row) := by
  simp only [ungroupedStep]
  split
  · constructor
    · intro p hp
      rcases List.mem_append.mp hp with h1 | h2
      · exact h.1 p h1
      · rw [List.mem_singleton.mp h2]; exact h.2
    · simp [createNewPage]
  · constructor
    · exact h.1
    · simpa using h.2

lemma finalizePages_no_gt (st : AssembleState) (h : noGrandTotalState st) :
    ∀ p ∈ finalizePages st, p.grandTotal = none := by
  simp only [finalizePages]
  split
  · intro p hp
    rcases List.mem_append.mp hp with h1 | h2
    · exact h.1 p h1
    · rw [List.mem_singleton.mp h2]; exact h.2
  · exact h.1

lemma aggregateAssembledPages_no_gt (d : TableData) (options : PaginateOptions) :
    ∀ p ∈ aggregateAssembledPages d options, p.grandTotal = none := by
  simp only [aggregateAssembledPages]
  split
  · exact finalizePages_no_gt _
      (foldl_inv noGrandTotalState _ (fun st g => noGrandTotalState_groupedStep _ _ _ st g) _ _
        (noGrandTotalState_initial _ _))
  · exact finalizePages_no_gt _
      (foldl_inv noGrandTotalState _ (fun st r => noGrandTotalState_ungroupedStep _ _ _ st r) _ _
        (noGrandTotalState_initial _ _))

lemma aggregateAssembledPages_ne_nil (d : TableData) (options : PaginateOptions)
    (h : d.rows ≠ []) : aggregateAssembledPages d options ≠ [] := by
  intro hnil
  have hrows := aggregateAssembledPages_rows d options
  rw [hnil] at hrows
  exact h hrows.symm

lemma map_grandTotal_eq_replicate (l : List Page) (h : ∀ p ∈ l, p.grandTotal = none) :
    l.map Page.grandTotal = List.replicate l.length none := by
  induction l with
  | nil => rfl
  | cons p t ih =>
    simp only [List.map_cons, List.length_cons, List.replicate_succ]
    rw [h p (by simp), ih (fun q hq => h q (by simp [hq]))]

/-- C4 (amended): when a grand total is present AND at least one data row
exists, exactly one output page carries the grand total and it is the last
page. -/
theorem c4_amended_grand_total_last (d : TableData) (options : PaginateOptions)
    (gt : GrandTotal) (hgt : d.grandTotal = some gt) (hrows : d.rows ≠ []) :
    (paginateAggregateTable (some d) options).map Page.grandTotal =
      List.replicate ((paginateAggregateTable (some d) options).length - 1) none ++
        [some gt] := by
  rw [paginateAggregateTable_some, stampTotalPages_map_grandTotal, stampTotalPages_length]
  have hne := aggregateAssembledPages_ne_nil d options hrows
  have hnogt := aggregateAssembledPages_no_gt d options
  cases hlast : (aggregateAssembledPages d options).getLast? with
  | none =>
    exfalso
    rw [List.getLast?_eq_none_iff] at hlast
    exact hne hlast
  | some lp =>
    rw [hgt]
    simp only [attachGrandTotal, hlast]
    have hdecomp := list_eq_dropLast_append (aggregateAssembledPages d options) lp hlast
    split
    · have hdl : ∀ p ∈ (aggregateAssembledPages d options).dropLast, p.grandTotal = none := by
        intro p hp
        exact hnogt p (by rw [hdecomp]; exact List.mem_append_left _ hp)
      rw [List.map_append, map_grandTotal_eq_replicate _ hdl]
      simp [List.length_dropLast]
    · rw [List.map_append, map_grandTotal_eq_replicate _ hnogt]
      simp [createNewPage]

/-- C4 counterexample: with a grand total present but zero data rows, the
paginator emits no pages at all, so no output page carries the grand
total - contradicting the claim for the zero-row input it covers. -/
theorem c4_counterexample :
    gtOnlyData.grandTotal = some gt0 ∧
    paginateAggregateTable (some gtOnlyData) defaultPaginateOptions = [] :=
  ⟨rfl, rfl⟩

/-- Witness for the amended C4 at a one-row table. -/
theorem c4_amended_grand_total_last_witness :
    oneRowGT.grandTotal = some gt0 ∧ oneRowGT.rows ≠ [] ∧
    (paginateAggregateTable (some oneRowGT) defaultPaginateOptions).map Page.grandTotal =
      List.replicate
        ((paginateAggregateTable (some oneRowGT) defaultPaginateOptions).length - 1) none ++
        [some gt0] :=
  ⟨rfl, by decide,
    c4_amended_grand_total_last oneRowGT defaultPaginateOptions gt0 rfl (by decide)⟩

/-! ## Grand-total placement condition (C3) -/

/-- C3: with a grand total and a non-empty assembled page list, the grand
total is attached to the existing last page iff
`numHeaderRows + lastPage.rows.length + 1 ≤ maxDataRows + numHeaderRows`;
otherwise a brand-new final page with the same headers, no data rows and
only the grand total is appended. -/
theorem c3_grand_total_placement (d : TableData) (options : PaginateOptions)
    (gt : GrandTotal) (lp : Page) (hgt : d.grandTotal = some gt)
    (hlast : (aggregateAssembledPages d options).getLast? = some lp) :
    paginateAggregateTable (some d) options =
      if (numHeaderRowsOf d.headers : Int) + (lp.rows.length : Int) + 1 ≤
          AggregateTablePaginator.getDataRowsPerPage options.pageSize options.orientation
            (numHeaderRowsOf d.headers) + (numHeaderRowsOf d.headers : Int) then
        stampTotalPages ((aggregateAssembledPages d options).dropLast ++
          [{ lp with grandTotal := some gt }])
      else
        stampTotalPages ((aggregateAssembledPages d options) ++
          [{ createNewPage d.headers ((aggregateAssembledPages d options).length + 1)
              d.metadata with grandTotal := some gt }]) := by
  rw [paginateAggregateTable_some, hgt]
  simp only [attachGrandTotal, hlast]
  split
  · rfl
  · rfl

/-- The single assembled page of the one-row grand-total fixture. -/
def oneRowAssembledLast : Page :=
  { headers := none, rows := [dataRow 0], pageNumber := 1, metadata := "",
    grandTotal := none, totalPages := none }

/-- Witness for C3 at the one-row grand-total fixture (the fitting branch). -/
theorem c3_grand_total_placement_witness :
    oneRowGT.grandTotal = some gt0 ∧
    (aggregateAssembledPages oneRowGT defaultPaginateOptions).getLast? =
      some oneRowAssembledLast ∧
    paginateAggregateTable (some oneRowGT) defaultPaginateOptions =
      (if (numHeaderRowsOf oneRowGT.headers : Int) + (oneRowAssembledLast.rows.length : Int) +
            1 ≤
          AggregateTablePaginator.getDataRowsPerPage defaultPaginateOptions.pageSize
            defaultPaginateOptions.orientation (numHeaderRowsOf oneRowGT.headers) +
            (numHeaderRowsOf oneRowGT.headers : Int) then
        stampTotalPages ((aggregateAssembledPages oneRowGT defaultPaginateOptions).dropLast ++
          [{ oneRowAssembledLast with grandTotal := some gt0 }])
      else
        stampTotalPages ((aggregateAssembledPages oneRowGT defaultPaginateOptions) ++
          [{ createNewPage oneRowGT.headers
              ((aggregateAssembledPages oneRowGT defaultPaginateOptions).length + 1)
              oneRowGT.metadata with grandTotal := some gt0 }])) := by
  have hb : AggregateTablePaginator.getDataRowsPerPage ("Letter") ("portrait") 1 = 28 := by
    simp [AggregateTablePaginator.getDataRowsPerPage, dataRowsPerPageWith, heightPx,
      pageHeightsPx, orientationHeight, letterHeights, mmToPx, DPI]
    norm_num
  have hassembled : aggregateAssembledPages oneRowGT defaultPaginateOptions =
      assembleUngrouped none ("")
        (AggregateTablePaginator.getDataRowsPerPage ("Letter") ("portrait") 1)
        [dataRow 0] := rfl
  have hlast : (aggregateAssembledPages oneRowGT defaultPaginateOptions).getLast? =
      some oneRowAssembledLast := by
    rw [hassembled, hb]
    decide
  exact ⟨rfl, hlast,
    c3_grand_total_placement oneRowGT defaultPaginateOptions gt0 oneRowAssembledLast rfl hlast⟩

/-! ## The fixed grouped scenario (C5) -/

/-- C5 counterexample: the grouper does yield groups of sizes 3, 4, 1, but the
assembler emits two pages, not three: the third group (one row) still fits on
page 2 because 4 + 1 ≤ 5. -/
theorem c5_counterexample :
    AggregateTablePaginator.groupRowsWithSubtotals scenarioRows =
      [[dataRow 0, dataRow 1, subtotalRow 2],
       [dataRow 3, dataRow 4, dataRow 5, subtotalRow 6],
       [dataRow 7]] ∧
    (assembleGrouped none ("") 5
      (AggregateTablePaginator.groupRowsWithSubtotals scenarioRows)).length = 2 := by
  constructor
  · decide
  · decide

/-- C5 (amended): for `[d,d,S,d,d,d,S,d]` with `maxDataRows = 5` the grouper
yields `[d,d,S]`, `[d,d,d,S]`, `[d]` and the assembler produces exactly two
pages: `[d,d,S]` and `[d,d,d,S,d]`. -/
theorem c5_amended_scenario :
    AggregateTablePaginator.groupRowsWithSubtotals scenarioRows =
      [[dataRow 0, dataRow 1, subtotalRow 2],
       [dataRow 3, dataRow 4, dataRow 5, subtotalRow 6],
       [dataRow 7]] ∧
    (assembleGrouped none ("") 5
      (AggregateTablePaginator.groupRowsWithSubtotals scenarioRows)).map Page.rows =
      [[dataRow 0, dataRow 1, subtotalRow 2],
       [dataRow 3, dataRow 4, dataRow 5, subtotalRow 6, dataRow 7]] := by
  constructor
  · decide
  · decide

/-! ## The Letter-portrait budget fixture (C6) -/

/-- C6: the Letter-portrait one-header budget is exactly 28 data rows, and
100 subtotal-free rows paginate into pages of `[28, 28, 28, 16]` rows. -/
theorem c6_budget_fixture :
    DataTablePaginator.getDataRowsPerPage ("Letter") ("portrait") 1 = 28 ∧
    (paginateDataTable (some d100) defaultPaginateOptions).map
        (fun page => page.rows.length) =
      [28, 28, 28, 16] := by
  have hb : DataTablePaginator.getDataRowsPerPage ("Letter") ("portrait") 1 = 28 := by
    simp [DataTablePaginator.getDataRowsPerPage, dataRowsPerPageWith, heightPx, pageHeightsPx,
      orientationHeight, letterHeights, mmToPx, DPI]
    norm_num
  refine ⟨hb, ?_⟩
  have h2 : paginateDataTable (some d100) defaultPaginateOptions =
      stampTotalPages (assembleUngrouped (some [fixtureHeaderRow]) ("")
        (DataTablePaginator.getDataRowsPerPage ("Letter") ("portrait") 1) rows100) := rfl
  rw [h2, hb]
  set_option maxRecDepth 100000 in
  decide

/-! ## Budget-calculator fallbacks (C7) -/

lemma pageHeightsPx_unknown (ps : String) (h : ps ∉ knownPageSizes) :
    pageHeightsPx ps = none := by
  simp only [knownPageSizes, List.mem_cons, List.not_mem_nil, or_false, not_or] at h
  obtain ⟨h1, h2, h3, h4, h5⟩ := h
  simp [pageHeightsPx, h1, h2, h3, h4, h5]

lemma orientationHeight_unknown (hh : PageHeights) (o : String)
    (h : o ∉ knownOrientations) : orientationHeight hh o = none := by
  simp only [knownOrientations, List.mem_cons, List.not_mem_nil, or_false, not_or] at h
  obtain ⟨h1, h2⟩ := h
  simp [orientationHeight, h1, h2]

lemma heightPx_unknown_size (ps o : String) (h : ps ∉ knownPageSizes) :
    heightPx ps o = heightPx ("Letter") o := by
  unfold heightPx
  rw [pageHeightsPx_unknown ps h]
  simp [pageHeightsPx]

lemma heightPx_unknown_orientation (ps o : String) (h : o ∉ knownOrientations) :
    heightPx ps o = heightPx ("Letter") ("portrait") := by
  unfold heightPx
  rw [orientationHeight_unknown _ o h]
  simp [pageHeightsPx, orientationHeight, letterHeights]

lemma dataRowsPerPageWith_height_congr (c : ℚ) (ps1 o1 ps2 o2 : String) (k : Nat)
    (hH : heightPx ps1 o1 = heightPx ps2 o2) :
    dataRowsPerPageWith c ps1 o1 k = dataRowsPerPageWith c ps2 o2 k := by
  simp only [dataRowsPerPageWith, hH]

/-- C7 (amended): the budget calculator is total and always at least 1; an
unknown `pageSize` falls back to Letter with the requested orientation; an
unknown orientation falls back to Letter portrait (not to the requested
page size's portrait). -/
theorem c7_amended_budget_fallbacks (pageSize orientation : String)
    (headerRowCount : Nat) :
    1 ≤ DataTablePaginator.getDataRowsPerPage pageSize orientation headerRowCount ∧
    (pageSize ∉ knownPageSizes →
      DataTablePaginator.getDataRowsPerPage pageSize orientation headerRowCount =
        DataTablePaginator.getDataRowsPerPage ("Letter") orientation headerRowCount) ∧
    (orientation ∉ knownOrientations →
      DataTablePaginator.getDataRowsPerPage pageSize orientation headerRowCount =
        DataTablePaginator.getDataRowsPerPage ("Letter") ("portrait") headerRowCount) := by
  refine ⟨?_, ?_, ?_⟩
  · simp only [DataTablePaginator.getDataRowsPerPage, dataRowsPerPageWith]
    exact le_max_left 1 _
  · intro h
    exact dataRowsPerPageWith_height_congr 56 _ _ _ _ _
      (heightPx_unknown_size pageSize orientation h)
  · intro h
    exact dataRowsPerPageWith_height_congr 56 _ _ _ _ _
      (heightPx_unknown_orientation pageSize orientation h)

/-- C7 counterexample: `Legal` with the unknown orientation `diagonal` falls
back to the Letter-portrait budget (28), not to the Legal-portrait budget
(39). -/
theorem c7_counterexample :
    ("diagonal" : String) ∉ knownOrientations ∧
    DataTablePaginator.getDataRowsPerPage ("Legal") ("diagonal") 1 = 28 ∧
    DataTablePaginator.getDataRowsPerPage ("Legal") ("portrait") 1 = 39 := by
  refine ⟨by decide, ?_, ?_⟩
  · simp [DataTablePaginator.getDataRowsPerPage, dataRowsPerPageWith, heightPx, pageHeightsPx,
      orientationHeight, letterHeights, mmToPx, DPI]
    norm_num
  · simp [DataTablePaginator.getDataRowsPerPage, dataRowsPerPageWith, heightPx, pageHeightsPx,
      orientationHeight, letterHeights, mmToPx, DPI]
    norm_num

/-- Witness for the amended C7 at the unknown size `Tabloid` and unknown
orientation `diagonal`. -/
theorem c7_amended_budget_fallbacks_witness :
    ("Tabloid" : String) ∉ knownPageSizes ∧ ("diagonal" : String) ∉ knownOrientations ∧
    1 ≤ DataTablePaginator.getDataRowsPerPage ("Tabloid") ("diagonal") 3 ∧
    DataTablePaginator.getDataRowsPerPage ("Tabloid") ("diagonal") 3 =
      DataTablePaginator.getDataRowsPerPage ("Letter") ("diagonal") 3 ∧
    DataTablePaginator.getDataRowsPerPage ("Tabloid") ("diagonal") 3 =
      DataTablePaginator.getDataRowsPerPage ("Letter") ("portrait") 3 :=
  ⟨by decide, by decide,
    (c7_amended_budget_fallbacks ("Tabloid") ("diagonal") 3).1,
    (c7_amended_budget_fallbacks ("Tabloid") ("diagonal") 3).2.1 (by decide),
    (c7_amended_budget_fallbacks ("Tabloid") ("diagonal") 3).2.2 (by decide)⟩

/-! ## The three budget calculators (C8) -/

/-- C8 (amended): the data-table and aggregate-table budget calculators agree
for every input (both use a 56px page-header block). -/
theorem c8_amended_data_aggregate_in_sync (pageSize orientation : String)
    (headerRowCount : Nat) :
    DataTablePaginator.getDataRowsPerPage pageSize orientation headerRowCount =
      AggregateTablePaginator.getDataRowsPerPage pageSize orientation headerRowCount := rfl

/-- C8 counterexample: the pivot calculator (64px page-header block) disagrees
with the other two at A4 portrait with one header row: 30 versus 31. -/
theorem c8_counterexample :
    AggregateTablePaginator.getDataRowsPerPage ("A4") ("portrait") 1 = 31 ∧
    PivotTablePaginator.getDataRowsPerPage ("A4") ("portrait") 1 = 30 ∧
    AggregateTablePaginator.getDataRowsPerPage ("A4") ("portrait") 1 ≠
      PivotTablePaginator.getDataRowsPerPage ("A4") ("portrait") 1 := by
  have h1 : AggregateTablePaginator.getDataRowsPerPage ("A4") ("portrait") 1 = 31 := by
    simp [AggregateTablePaginator.getDataRowsPerPage, dataRowsPerPageWith, heightPx,
      pageHeightsPx, orientationHeight, letterHeights, mmToPx, DPI]
    norm_num
  have h2 : PivotTablePaginator.getDataRowsPerPage ("A4") ("portrait") 1 = 30 := by
    simp [PivotTablePaginator.getDataRowsPerPage, dataRowsPerPageWith, heightPx,
      pageHeightsPx, orientationHeight, letterHeights, mmToPx, DPI]
    norm_num
  refine ⟨h1, h2, ?_⟩
  rw [h1, h2]
  decide

/-! ## The dangling `getTotalRowsPerPage` reference (C10) -/

/-- C10: the pivot module's exported `estimateRowsPerPage` calls
`getTotalRowsPerPage`, which no module of the repository defines, so every
invocation throws a `ReferenceError` instead of returning a budget. -/
theorem c10_estimate_rows_reference_error (pageSize orientation : String)
    (hasMultiRowHeaders : Bool) (numHeaderRows : Int) :
    PivotTablePaginator.resolveTotalRowsPerPage = none ∧
    PivotTablePaginator.estimateRowsPerPage pageSize orientation hasMultiRowHeaders
        numHeaderRows =
      Except.error { name := "ReferenceError"
                     message := "getTotalRowsPerPage is not defined" } :=
  ⟨rfl, rfl⟩
